import Mathlib

/-!
Verification development for the FarmXpert multi-service orchestration and
aggregation engine.  The definitions below are shallow embeddings of the
JavaScript source files of the repository (the React orchestrator context
reducer, the chat context, the SuperAgent chat interface, the voice
interface helpers) together with spec-modelled definitions for the parts of
the backend core that are not present in the source tree (the aggregator
sort, the fertilizer confidence rule, the workflow-engine cancellation).
-/

/-! ## JavaScript-style helpers -/

/-- JS `v || d` on an optional string: an absent value and the empty string
are both falsy, anything else is returned as is. -/
def jsOrStr (v : Option String) (d : String) : String :=
  match v with
  | none => d
  | some s => if s = "" then d else s

/-! ## Orchestrator reducer (OrchestratorContext, `src/unnamed/part_001`) -/

/-- One task of a workflow as delivered by the backend and stored in
`state.currentWorkflow.tasks` (fields used by the frontend). -/
structure WTask where
  agent_name : String
  status : String
  deriving DecidableEq, Repr

/-- A workflow object as stored in `state.currentWorkflow`; `tasks` is
optional because the frontend guards `!workflow.tasks`. -/
structure Workflow where
  id : String
  tasks : Option (List WTask)
  deriving DecidableEq, Repr

/-- One entry of the orchestrator context message history
(`{ id, type, content, timestamp, workflowId }`; the timestamp is an
opaque string here). -/
structure OrcMessage where
  id : Nat
  type : String
  content : String
  timestamp : String
  workflowId : Option String
  deriving DecidableEq, Repr

/-- The orchestrator context state handled by `orchestratorReducer`. -/
structure OrcState where
  loading : Bool
  error : Option String
  session : Option String
  currentWorkflow : Option Workflow
  agentStatuses : List (String × String)
  messages : List OrcMessage
  reasoningTree : Option String
  systemStatus : Option String
  deriving DecidableEq, Repr

/-- `initialState` of the orchestrator context. -/
def initialOrcState : OrcState :=
  { loading := false
    error := none
    session := none
    currentWorkflow := none
    agentStatuses := []
    messages := []
    reasoningTree := none
    systemStatus := none }

/-- The actions dispatched to `orchestratorReducer` (the `ACTIONS` table). -/
inductive OrcAction where
  | setLoading (b : Bool)
  | setError (e : Option String)
  | setSession (s : Option String)
  | setWorkflow (w : Option Workflow)
  | updateAgentStatus (agentName status : String)
  | addMessage (m : OrcMessage)
  | setReasoningTree (t : Option String)
  | clearWorkflow
  | setSystemStatus (st : Option String)
  deriving DecidableEq, Repr

/-- JS object spread update `{ ...obj, [k]: v }` on an association list:
replace the value of an existing key in place, otherwise append. -/
def setAssoc : List (String × String) → String → String → List (String × String)
  | [], k, v => [(k, v)]
  | (k', v') :: rest, k, v =>
      if k' = k then (k, v) :: rest else (k', v') :: setAssoc rest k v

/-- JS object property read on the association list. -/
def getAssoc : List (String × String) → String → Option String
  | [], _ => none
  | (k', v') :: rest, k => if k' = k then some v' else getAssoc rest k

/-- The `orchestratorReducer` switch, case for case. -/
def orchestratorReducer (state : OrcState) (action : OrcAction) : OrcState :=
  match action with
  | .setLoading b => { state with loading := b }
  | .setError e => { state with error := e, loading := false }
  | .setSession s => { state with session := s }
  | .setWorkflow w => { state with currentWorkflow := w, loading := false, error := none }
  | .updateAgentStatus agentName status =>
      { state with agentStatuses := setAssoc state.agentStatuses agentName status }
  | .addMessage m => { state with messages := state.messages ++ [m] }
  | .setReasoningTree t => { state with reasoningTree := t }
  | .clearWorkflow =>
      { state with currentWorkflow := none
                   agentStatuses := []
                   reasoningTree := none
                   error := none }
  | .setSystemStatus st => { state with systemStatus := st }

/-- Status of a named task in the orchestrator state. -/
def statusOf (s : OrcState) (n : String) : Option String :=
  getAssoc s.agentStatuses n

/-- A task status string is terminal when it is completed or failed. -/
def isTerminalStatus (s : String) : Bool :=
  s = "completed" || s = "failed"

/-! ## Chat context (`src/frontend/src/contexts/ChatContext.jsx`) -/

/-- One chat message as built by `sendMessage` / stored in `messages`.
Fields a given message literal does not set in the source are modelled as
`none` or `[]`.  The source message objects carry no `blockers` field at
all, which is why none appears here. -/
structure ChatMsg where
  type : String
  content : String
  agent : Option String
  intent : Option String
  recommendations : List String
  warnings : List String
  deriving DecidableEq, Repr

/-- The parsed body of the orchestrator response consumed by
`ChatContext.sendMessage` (`data`).  `recommendations`, `warnings` and
`blockers` are optional arrays (`data.recommendations || []`), `session`
holds `data.session?.id`, `agent_details` the keys of
`data.agent_details`. -/
structure RespData where
  success : Option Bool
  response : Option String
  error : Option String
  session : Option String
  agent_details : List String
  intent : Option String
  recommendations : Option (List String)
  warnings : Option (List String)
  blockers : Option (List String)
  deriving DecidableEq, Repr

/-- The three ways the `fetch` of `sendMessage` can resolve: a thrown
network error, a response whose body is not JSON (`response.json()`
throws), or a response with a parsed JSON body, each with the HTTP
`response.ok` flag. -/
inductive FetchOutcome where
  | netError (msg : String)
  | reply (ok : Bool) (body : Option RespData)
  deriving DecidableEq, Repr

/-- The user message appended at the start of `sendMessage`. -/
def mkUserMessage (agentName : Option String) (text : String) : ChatMsg :=
  { type := "user"
    content := text
    agent := agentName
    intent := none
    recommendations := []
    warnings := [] }

/-- The fallback body used when `response.json()` throws:
`{ success: false, response: "Unexpected server response." }`. -/
def unexpectedBody : RespData :=
  { success := some false
    response := some "Unexpected server response."
    error := none
    session := none
    agent_details := []
    intent := none
    recommendations := none
    warnings := none
    blockers := none }

/-- `data?.response || data?.error || "Failed to send message"`. -/
def serverMsgOf (d : RespData) : String :=
  jsOrStr d.response (jsOrStr d.error "Failed to send message")

/-- What one call of `sendMessage` leaves behind: the messages it appended
(in order), the session id afterwards, the final loading flag, and the
returned success flag. -/
structure SendResult where
  appended : List ChatMsg
  sessionId : Option String
  loading : Bool
  success : Bool
  deriving DecidableEq, Repr

/-- Shallow embedding of `ChatContext.sendMessage`: the user message is
appended first; a thrown fetch lands in the catch block and appends an
`error` message; a non-JSON body is replaced by `unexpectedBody`; a
non-ok response or `data.success === false` appends the server message as
an assistant reply; otherwise the session id is taken from the response
and the assistant message is built from `data`.  The finally block always
clears `loading`. -/
def sendMessage (sessionId : Option String) (agentName : Option String)
    (text : String) (o : FetchOutcome) : SendResult :=
  let userMessage := mkUserMessage agentName text
  match o with
  | .netError msg =>
      { appended := [userMessage,
          { type := "error", content := "Error: " ++ msg, agent := none,
            intent := none, recommendations := [], warnings := [] }]
        sessionId := sessionId
        loading := false
        success := false }
  | .reply ok body =>
      let data := match body with
        | none => unexpectedBody
        | some d => d
      if ¬ ok ∨ data.success = some false then
        { appended := [userMessage,
            { type := "assistant", content := serverMsgOf data, agent := none,
              intent := none, recommendations := [], warnings := [] }]
          sessionId := sessionId
          loading := false
          success := false }
      else
        { appended := [userMessage,
            { type := "assistant"
              content := jsOrStr data.response "No response received"
              agent := data.agent_details.head?
              intent := data.intent
              recommendations := data.recommendations.getD []
              warnings := data.warnings.getD [] }]
          sessionId := match data.session with
            | some sid => some sid
            | none => sessionId
          loading := false
          success := true }

/-- The chat context state touched by `clearChat`. -/
structure ChatState where
  messages : List ChatMsg
  loading : Bool
  sessionId : Option String
  currentAgent : Option String
  deriving DecidableEq, Repr

/-- `clearChat` from the chat context: it resets the message list to the
empty list and clears the session id and current agent. -/
def clearChat (s : ChatState) : ChatState :=
  { s with messages := [], sessionId := none, currentAgent := none }

/-! ## SuperAgent chat interface (`src/unnamed/part_010`) -/

/-- One entry of `responseData.agent_responses` (the field the renderer
reads). -/
structure SAAgentResponse where
  agent_name : String
  deriving DecidableEq, Repr

/-- The response data handed to `createAgentResponseDetails`. -/
structure SAResponseData where
  agent_responses : List SAAgentResponse
  recommendations : Option (List String)
  warnings : Option (List String)
  blockers : Option (List String)
  deriving DecidableEq, Repr

/-- The pieces of HTML produced by `createAgentResponseDetails`, kept as
lists of rendered items: the agent tags, the recommendation list items and
the warning list items.  `rendered` is false when the function returns the
empty string because `agent_responses` is empty. -/
structure AgentDetailsRender where
  rendered : Bool
  agentTags : List String
  recItems : List String
  warnItems : List String
  deriving DecidableEq, Repr

/-- Shallow embedding of `SuperAgentChat.createAgentResponseDetails`: agent
tags for every agent response, one `<li>` per recommendation (when the
array is present and non-empty) and one `<li>` per warning.  No other
field of the response data is rendered. -/
def createAgentResponseDetails (rd : SAResponseData) : AgentDetailsRender :=
  if rd.agent_responses = [] then
    { rendered := false, agentTags := [], recItems := [], warnItems := [] }
  else
    { rendered := true
      agentTags := rd.agent_responses.map
        (fun r => "<span class=\"agent-tag\">" ++ r.agent_name ++ "</span>")
      recItems := match rd.recommendations with
        | some recs => if recs = [] then [] else recs.map (fun r => "<li>" ++ r ++ "</li>")
        | none => []
      warnItems := match rd.warnings with
        | some ws => if ws = [] then [] else ws.map (fun w => "<li>" ++ w ++ "</li>")
        | none => [] }

/-! ## Voice interface helper (`src/frontend/src/components/orchestrator/VoiceInterface.jsx`) -/

/-- JS `s.replace(/_/g, " ")`: every underscore becomes a space. -/
def jsUnderscoreToSpace (s : List Char) : List Char :=
  s.map (fun c => if c = '_' then ' ' else c)

/-- JS `s.replace(pat, "")` for a plain string pattern: remove the first
occurrence of `pat`, leave the string unchanged when there is none. -/
def removeFirstOcc (pat : List Char) : List Char → List Char
  | [] => []
  | c :: rest =>
      if pat.isPrefixOf (c :: rest) then (c :: rest).drop pat.length
      else c :: removeFirstOcc pat rest

/-- JS `s.trim()`: strip leading and trailing whitespace. -/
def jsTrim (s : List Char) : List Char :=
  ((s.dropWhile Char.isWhitespace).reverse.dropWhile Char.isWhitespace).reverse

/-- The per-task name cleanup in `getConsultedAgents`:
`t.agent_name.replace(/_/g, " ").replace("agent", "").trim()`. -/
def cleanAgentName (n : String) : String :=
  ⟨jsTrim (removeFirstOcc "agent".data (jsUnderscoreToSpace n.data))⟩

/-- Shallow embedding of `getConsultedAgents`: the cleaned names of the
tasks of the current workflow whose status is `completed`; the empty list
when there is no workflow or it has no task list. -/
def getConsultedAgents (w : Option Workflow) : List String :=
  match w with
  | none => []
  | some wf =>
      match wf.tasks with
      | none => []
      | some ts =>
          (ts.filter (fun t => t.status = "completed")).map
            (fun t => cleanAgentName t.agent_name)

/-! ## Aggregator ordering (spec-modelled) -/

/-- Modelled from the spec: the AgentOutput contract value returned by one
adapter (§3 / §6); the backend adapter implementations are not in the
source tree. -/
structure AgentOutput where
  adapterName : String
  status : String
  confidence : ℚ
  recommendations : List String
  warnings : List String
  blockers : List String
  deriving DecidableEq, Repr

/-- One recommendation tagged with its adapter confidence and the
invocation index of the adapter that produced it. -/
structure TaggedRec where
  text : String
  confidence : ℚ
  adapterIdx : Nat
  deriving DecidableEq, Repr

/-- Modelled from the spec: the insertion step of the Aggregator sort —
a recommendation is placed before the first entry whose confidence is not
greater than its own, so earlier entries win ties. -/
def insertRec (r : TaggedRec) : List TaggedRec → List TaggedRec
  | [] => [r]
  | x :: xs =>
      if x.confidence ≤ r.confidence then r :: x :: xs else x :: insertRec r xs

/-- Modelled from the spec: the Aggregator's stable sort by descending
confidence (the backend Aggregator is not in the source tree; §4.5 asks
for descending confidence with ties broken by adapter invocation order). -/
def sortRecs : List TaggedRec → List TaggedRec
  | [] => []
  | r :: rs => insertRec r (sortRecs rs)

/-- The recommendations of a list of adapter outputs, flattened in adapter
invocation order and tagged with confidence and invocation index. -/
def taggedOf (outs : List AgentOutput) : List TaggedRec :=
  (outs.enum.map (fun p =>
    p.2.recommendations.map (fun t =>
      { text := t, confidence := p.2.confidence, adapterIdx := p.1 }))).flatten

/-- Modelled from the spec: the Aggregator's recommendation list — all
contributed recommendations, stably sorted by descending confidence. -/
def aggregateRecommendations (outs : List AgentOutput) : List TaggedRec :=
  sortRecs (taggedOf outs)

/-- Descending order on the confidences of a recommendation list. -/
def DescSorted (l : List TaggedRec) : Prop :=
  l.Pairwise (fun a b => b.confidence ≤ a.confidence)

/-! ## Fertilizer advisor confidence rule (spec-modelled) -/

/-- Modelled from the spec: the confidence rule of `fertilizer_advisor.py`
(absent from the source tree, documented in
`src/backend/app/agents/fertilizer_agent/DESIGN_SUMMARY.md`): base 0.85,
minus 0.10 for a group match, minus 0.20 for a generic fallback. -/
def confidenceForSource (src : String) : ℚ :=
  85/100 - (if src = "group" then 10/100 else if src = "generic" then 20/100 else 0)

/-! ## Workflow-engine cancellation (spec-modelled) -/

/-- One task held by the workflow engine. -/
structure EngTask where
  name : String
  status : String
  errorDetail : Option String
  output : Option AgentOutput
  deriving DecidableEq, Repr

/-- One workflow held by the workflow engine; `cancelled` records that an
explicit cancel has been processed. -/
structure EngWorkflow where
  id : String
  status : String
  cancelled : Bool
  tasks : List EngTask
  deriving DecidableEq, Repr

/-- Modelled from the spec: the backend cancellation transition (§4.4; the
workflow engine is not in the source tree, the frontend only posts to
`/api/orchestrator/workflow/{id}/cancel`): every non-terminal task moves
directly to `failed` with a cancellation error detail, terminal tasks are
untouched, and the workflow is marked `completed`. -/
def cancelWorkflowEngine (w : EngWorkflow) : EngWorkflow :=
  { w with
    status := "completed"
    cancelled := true
    tasks := w.tasks.map (fun t =>
      if isTerminalStatus t.status then t
      else { t with status := "failed", errorDetail := some "cancelled" }) }

/-- Modelled from the spec: delivery of an in-flight adapter result.  On a
cancelled workflow the result is discarded; otherwise the named task is
completed with the given output. -/
def deliverLateResult (w : EngWorkflow) (taskName : String)
    (out : AgentOutput) : EngWorkflow :=
  if w.cancelled then w
  else
    { w with tasks := w.tasks.map (fun t =>
        if t.name = taskName then
          { t with status := "completed", errorDetail := none, output := some out }
        else t) }

/-! ## Session-id generation (`SuperAgentChat.generateSessionId`,
`DashboardLayout.jsx`) -/

/-- Decimal rendering of a natural number, digit characters only, as JS
produces it when a number is concatenated into a string. -/
def natDecimal (n : Nat) : List Char :=
  if h : n < 10 then [Char.ofNat (48 + n)]
  else natDecimal (n / 10) ++ [Char.ofNat (48 + n % 10)]
  termination_by n
  decreasing_by exact Nat.div_lt_self (by omega) (by omega)

/-- Shallow embedding of `generateSessionId`:
`"session_" + Date.now() + "_" + Math.random().toString(36).substr(2, 9)`,
with the current millisecond timestamp and the random suffix as explicit
inputs (the ambient nondeterminism of the two calls). -/
def generateSessionId (nowMs : Nat) (randSuffix : String) : String :=
  ⟨"session_".data ++ natDecimal nowMs ++ '_' :: randSuffix.data⟩

/-! ## Update traces over the orchestrator reducer -/

/-- Apply a list of `UPDATE_AGENT_STATUS` dispatches in order. -/
def applyUpdates (s : OrcState) : List (String × String) → OrcState
  | [] => s
  | (n, st) :: rest =>
      applyUpdates (orchestratorReducer s (.updateAgentStatus n st)) rest

/-- A sequence of status updates is monotone from a state when no update
assigns a non-terminal status to a task whose current status is already
terminal, at every point of the sequence. -/
def monotoneUpdates (s : OrcState) : List (String × String) → Bool
  | [] => true
  | (n, st) :: rest =>
      (match statusOf s n with
       | some t => !isTerminalStatus t || isTerminalStatus st
       | none => true) &&
      monotoneUpdates (orchestratorReducer s (.updateAgentStatus n st)) rest

/-! ## Theorems -/

/-- Claim C10: the CLEAR_WORKFLOW transition resets `currentWorkflow`,
`agentStatuses`, `reasoningTree` and `error`, and leaves `messages`,
`session`, `systemStatus` and `loading` unchanged. -/
theorem clearWorkflow_frame (s : OrcState) :
    (orchestratorReducer s .clearWorkflow).currentWorkflow = none ∧
    (orchestratorReducer s .clearWorkflow).agentStatuses = [] ∧
    (orchestratorReducer s .clearWorkflow).reasoningTree = none ∧
    (orchestratorReducer s .clearWorkflow).error = none ∧
    (orchestratorReducer s .clearWorkflow).messages = s.messages ∧
    (orchestratorReducer s .clearWorkflow).session = s.session ∧
    (orchestratorReducer s .clearWorkflow).systemStatus = s.systemStatus ∧
    (orchestratorReducer s .clearWorkflow).loading = s.loading :=
  ⟨rfl, rfl, rfl, rfl, rfl, rfl, rfl, rfl⟩

/-- Claim C2: on every execution path of `sendMessage` — successful
response, server-reported failure, malformed/non-JSON body, thrown network
exception — exactly one terminal message (an assistant reply or an error
message) is appended after the user message, the loading state ends
cleared, and the success path is the one that yields an assistant answer
built from the response data. -/
theorem sendMessage_always_terminates (sid ag : Option String) (text : String)
    (o : FetchOutcome) :
    (sendMessage sid ag text o).loading = false ∧
    (∃ m : ChatMsg,
      (sendMessage sid ag text o).appended = [mkUserMessage ag text, m] ∧
      (m.type = "assistant" ∨ m.type = "error")) ∧
    ((sendMessage sid ag text o).success = true ↔
      ∃ d : RespData, o = .reply true (some d) ∧ d.success ≠ some false) := by
  cases o with
  | netError msg =>
      refine ⟨rfl, ⟨_, rfl, Or.inr rfl⟩, ?_⟩
      simp [sendMessage]
  | reply ok body =>
      cases body with
      | none =>
          dsimp only [sendMessage]
          rw [if_pos (show ¬ (ok = true) ∨ unexpectedBody.success = some false
            from Or.inr rfl)]
          refine ⟨rfl, ⟨_, rfl, Or.inl rfl⟩, ?_⟩
          simp
      | some d =>
          dsimp only [sendMessage]
          by_cases hc : ¬ (ok = true) ∨ d.success = some false
          · rw [if_pos hc]
            refine ⟨rfl, ⟨_, rfl, Or.inl rfl⟩, ?_⟩
            constructor
            · intro habs
              exact absurd habs (by simp)
            · rintro ⟨d', hd, hsucc⟩
              injection hd with hok hbody
              injection hbody with hbody
              subst hbody
              rcases hc with hc | hc
              · exact (hc hok).elim
              · exact (hsucc hc).elim
          · rw [if_neg hc]
            push_neg at hc
            refine ⟨rfl, ⟨_, rfl, Or.inl rfl⟩, ?_⟩
            constructor
            · intro _
              exact ⟨d, by rw [hc.1], hc.2⟩
            · intro _
              rfl

/-- Claim C6 (amended): every orchestrator-reducer operation is
append-only on the message history — the previous message list is an
initial segment of the new one — while the chat context's `clearChat`
resets the history to the empty list, removing previously appended
messages. -/
theorem reducer_messages_append_only :
    (∀ (s : OrcState) (a : OrcAction),
      ∃ t, (orchestratorReducer s a).messages = s.messages ++ t) ∧
    (∀ cs : ChatState, (clearChat cs).messages = []) := by
  constructor
  · intro s a
    cases a
    case addMessage m => exact ⟨[m], rfl⟩
    all_goals exact ⟨[], by simp [orchestratorReducer]⟩
  · intro cs
    rfl

/-- Claim C6 counterexample: `clearChat` applied to a state holding one
message yields a message list of which the previous list is not an
initial segment — a previously appended message is removed. -/
theorem clearChat_not_append_only :
    ¬ ∃ t, (clearChat
      { messages := [{ type := "user", content := "hello", agent := none,
                       intent := none, recommendations := [], warnings := [] }]
        loading := false
        sessionId := some "s1"
        currentAgent := none }).messages
      = [({ type := "user", content := "hello", agent := none,
            intent := none, recommendations := [], warnings := [] } : ChatMsg)] ++ t := by
  rintro ⟨t, h⟩
  simp [clearChat] at h

/-- The demonstration workflow used to instantiate the cancellation
theorem: one terminal task and one running task. -/
def demoEngWorkflow : EngWorkflow :=
  { id := "wf1"
    status := "running"
    cancelled := false
    tasks := [{ name := "a", status := "completed", errorDetail := none, output := none },
              { name := "b", status := "running", errorDetail := none, output := none }] }

/-- Claim C7: cancelling a workflow with at least one non-terminal task
marks the workflow `completed`, moves every non-terminal task directly to
`failed` with a cancellation error detail, leaves terminal tasks
untouched, and any adapter result arriving after the cancellation is
discarded. -/
theorem cancelWorkflowEngine_spec (w : EngWorkflow)
    (h : ∃ t ∈ w.tasks, isTerminalStatus t.status = false) :
    (cancelWorkflowEngine w).status = "completed" ∧
    (∀ t ∈ (cancelWorkflowEngine w).tasks, isTerminalStatus t.status = true) ∧
    (∀ t ∈ w.tasks, isTerminalStatus t.status = false →
      ({ t with status := "failed", errorDetail := some "cancelled" } : EngTask)
        ∈ (cancelWorkflowEngine w).tasks) ∧
    (∀ t ∈ w.tasks, isTerminalStatus t.status = true →
      t ∈ (cancelWorkflowEngine w).tasks) ∧
    (∀ n out, deliverLateResult (cancelWorkflowEngine w) n out
      = cancelWorkflowEngine w) := by
  refine ⟨rfl, ?_, ?_, ?_, ?_⟩
  · intro t ht
    simp only [cancelWorkflowEngine, List.mem_map] at ht
    obtain ⟨a, _, rfl⟩ := ht
    by_cases hterm : isTerminalStatus a.status = true
    · rw [if_pos hterm]; exact hterm
    · rw [if_neg hterm]; rfl
  · intro t ht hterm
    have := List.mem_map_of_mem (f := fun t =>
      if isTerminalStatus t.status then t
      else { t with status := "failed", errorDetail := some "cancelled" }) ht
    simp only [hterm] at this
    simpa [cancelWorkflowEngine] using this
  · intro t ht hterm
    have := List.mem_map_of_mem (f := fun t =>
      if isTerminalStatus t.status then t
      else { t with status := "failed", errorDetail := some "cancelled" }) ht
    simp only [hterm] at this
    simpa [cancelWorkflowEngine] using this
  · intro n out
    simp [deliverLateResult, cancelWorkflowEngine]

/-- Claim C7 witness: the cancellation theorem instantiated at a concrete
workflow with one running task. -/
theorem cancelWorkflowEngine_spec_witness :
    (∃ t ∈ demoEngWorkflow.tasks, isTerminalStatus t.status = false) ∧
    ((cancelWorkflowEngine demoEngWorkflow).status = "completed" ∧
     (∀ t ∈ (cancelWorkflowEngine demoEngWorkflow).tasks,
        isTerminalStatus t.status = true) ∧
     (∀ t ∈ demoEngWorkflow.tasks, isTerminalStatus t.status = false →
        ({ t with status := "failed", errorDetail := some "cancelled" } : EngTask)
          ∈ (cancelWorkflowEngine demoEngWorkflow).tasks) ∧
     (∀ t ∈ demoEngWorkflow.tasks, isTerminalStatus t.status = true →
        t ∈ (cancelWorkflowEngine demoEngWorkflow).tasks) ∧
     (∀ n out, deliverLateResult (cancelWorkflowEngine demoEngWorkflow) n out
        = cancelWorkflowEngine demoEngWorkflow)) :=
  ⟨by decide, cancelWorkflowEngine_spec demoEngWorkflow (by decide)⟩

/-- Writing a key and reading it back yields the written value. -/
theorem getAssoc_setAssoc_self (l : List (String × String)) (k v : String) :
    getAssoc (setAssoc l k v) k = some v := by
  induction l with
  | nil => simp [setAssoc, getAssoc]
  | cons p rest ih =>
      obtain ⟨k', v'⟩ := p
      by_cases h : k' = k
      · simp [setAssoc, getAssoc, h]
      · simp [setAssoc, getAssoc, h, ih]

/-- Writing one key leaves every other key unchanged. -/
theorem getAssoc_setAssoc_ne (l : List (String × String)) (k v k' : String)
    (h : k' ≠ k) : getAssoc (setAssoc l k v) k' = getAssoc l k' := by
  induction l with
  | nil => simp [setAssoc, getAssoc, Ne.symm h]
  | cons p rest ih =>
      obtain ⟨k₀, v₀⟩ := p
      by_cases h0 : k₀ = k
      · subst h0
        simp [setAssoc, getAssoc, Ne.symm h]
      · by_cases h1 : k₀ = k'
        · simp [setAssoc, getAssoc, h, h0, h1]
        · simp [setAssoc, getAssoc, h0, h1, ih]

/-- Claim C5 counterexample: the reducer lets a task leave a terminal
status — after UPDATE_AGENT_STATUS to `completed` followed by
UPDATE_AGENT_STATUS to `pending`, the task is `pending` again. -/
theorem updateAgentStatus_not_monotone :
    statusOf (orchestratorReducer initialOrcState
      (.updateAgentStatus "crop_selector" "completed")) "crop_selector"
      = some "completed" ∧
    statusOf (orchestratorReducer
      (orchestratorReducer initialOrcState
        (.updateAgentStatus "crop_selector" "completed"))
      (.updateAgentStatus "crop_selector" "pending")) "crop_selector"
      = some "pending" := by
  constructor <;> rfl

/-- Claim C5 (amended): UPDATE_AGENT_STATUS overwrites a task's status
with whatever the action carries, so monotonicity is not enforced by the
reducer; it does hold for every update sequence that is itself monotone —
along such a sequence a task that has reached a terminal status is
terminal in the final state as well. -/
theorem monotone_trace_preserves_terminal :
    ∀ (us : List (String × String)) (s : OrcState) (n t : String),
    monotoneUpdates s us = true → statusOf s n = some t →
    isTerminalStatus t = true →
    ∃ t', statusOf (applyUpdates s us) n = some t' ∧
      isTerminalStatus t' = true := by
  intro us
  induction us with
  | nil =>
      intro s n t _ h1 h2
      exact ⟨t, h1, h2⟩
  | cons p rest ih =>
      obtain ⟨m, st⟩ := p
      intro s n t hmono h1 h2
      simp only [monotoneUpdates, Bool.and_eq_true] at hmono
      obtain ⟨hhead, hrest⟩ := hmono
      by_cases hmn : n = m
      · subst hmn
        rw [h1] at hhead
        have hhead' : (!isTerminalStatus t || isTerminalStatus st) = true := hhead
        rw [h2] at hhead'
        simp only [Bool.not_true, Bool.false_or] at hhead'
        have hst : statusOf (orchestratorReducer s (.updateAgentStatus n st)) n
            = some st := by
          simp [statusOf, orchestratorReducer, getAssoc_setAssoc_self]
        exact ih _ n st hrest hst hhead'
      · have hst : statusOf (orchestratorReducer s (.updateAgentStatus m st)) n
            = some t := by
          simpa [statusOf, orchestratorReducer,
            getAssoc_setAssoc_ne s.agentStatuses m st n hmn] using h1
        exact ih _ n t hrest hst h2

/-- Claim C5 witness: the amended theorem at a task already `completed`
and a monotone one-step update to `failed`. -/
theorem monotone_trace_preserves_terminal_witness :
    monotoneUpdates (orchestratorReducer initialOrcState
      (.updateAgentStatus "a" "completed")) [("a", "failed")] = true ∧
    statusOf (orchestratorReducer initialOrcState
      (.updateAgentStatus "a" "completed")) "a" = some "completed" ∧
    isTerminalStatus "completed" = true ∧
    ∃ t', statusOf (applyUpdates (orchestratorReducer initialOrcState
        (.updateAgentStatus "a" "completed")) [("a", "failed")]) "a" = some t' ∧
      isTerminalStatus t' = true :=
  ⟨by decide, by decide, by decide,
    monotone_trace_preserves_terminal [("a", "failed")]
      (orchestratorReducer initialOrcState (.updateAgentStatus "a" "completed"))
      "a" "completed" (by decide) (by decide) (by decide)⟩

/-- The task list a workflow snapshot effectively carries. -/
def tasksOf (w : Option Workflow) : List WTask :=
  match w with
  | none => []
  | some wf => wf.tasks.getD []

/-- `getConsultedAgents` over the effective task list. -/
theorem getConsultedAgents_eq (w : Option Workflow) :
    getConsultedAgents w =
      ((tasksOf w).filter (fun t => t.status = "completed")).map
        (fun t => cleanAgentName t.agent_name) := by
  cases w with
  | none => rfl
  | some wf =>
      obtain ⟨i, tasks⟩ := wf
      cases tasks <;> rfl

/-- First workflow snapshot of the C9 counterexample: the task completed. -/
def c9SnapA : Workflow :=
  { id := "w1"
    tasks := some [{ agent_name := "crop_selector_agent", status := "completed" }] }

/-- Second workflow snapshot of the C9 counterexample: the same task back
to running. -/
def c9SnapB : Workflow :=
  { id := "w1"
    tasks := some [{ agent_name := "crop_selector_agent", status := "running" }] }

/-- Claim C9 counterexample: two successive workflow snapshots delivered
through SET_WORKFLOW where a task goes from `completed` back to `running`
give a later consulted-agents set that is not a superset of the earlier
one. -/
theorem consultedAgents_not_monotone :
    ¬ (∀ x ∈ getConsultedAgents
        (orchestratorReducer initialOrcState
          (.setWorkflow (some c9SnapA))).currentWorkflow,
        x ∈ getConsultedAgents
        (orchestratorReducer
          (orchestratorReducer initialOrcState (.setWorkflow (some c9SnapA)))
          (.setWorkflow (some c9SnapB))).currentWorkflow) := by
  decide

/-- Claim C9 (amended): the client does not enforce monotone progress —
a later workflow snapshot may drop a task from `completed` — but whenever
every task completed in the earlier snapshot is still completed in the
later one, the consulted-agents set of the later observation is a
superset of the earlier one. -/
theorem consultedAgents_monotone_of_preserved (w₁ w₂ : Option Workflow)
    (h : ∀ t ∈ tasksOf w₁, t.status = "completed" →
      ∃ t' ∈ tasksOf w₂, t'.agent_name = t.agent_name ∧ t'.status = "completed") :
    ∀ x ∈ getConsultedAgents w₁, x ∈ getConsultedAgents w₂ := by
  intro x hx
  rw [getConsultedAgents_eq] at hx
  rw [getConsultedAgents_eq]
  simp only [List.mem_map, List.mem_filter, decide_eq_true_eq] at hx ⊢
  obtain ⟨t, ⟨ht, hcomp⟩, rfl⟩ := hx
  obtain ⟨t', ht', hname, hcomp'⟩ := h t ht hcomp
  exact ⟨t', ⟨ht', hcomp'⟩, by rw [hname]⟩

/-- Earlier snapshot of the C9 witness: one completed task. -/
def c9WitA : Workflow :=
  { id := "w1"
    tasks := some [{ agent_name := "soil_health_agent", status := "completed" }] }

/-- Later snapshot of the C9 witness: the completed task stays completed
and a second task finishes. -/
def c9WitB : Workflow :=
  { id := "w1"
    tasks := some [{ agent_name := "soil_health_agent", status := "completed" },
                   { agent_name := "crop_selector_agent", status := "completed" }] }

/-- Claim C9 witness: the amended theorem at two concrete snapshots where
the completed task stays completed and a second task finishes. -/
theorem consultedAgents_monotone_witness :
    (∀ t ∈ tasksOf (some c9WitA), t.status = "completed" →
      ∃ t' ∈ tasksOf (some c9WitB),
        t'.agent_name = t.agent_name ∧ t'.status = "completed") ∧
    (∀ x ∈ getConsultedAgents (some c9WitA),
      x ∈ getConsultedAgents (some c9WitB)) :=
  ⟨by decide,
    consultedAgents_monotone_of_preserved (some c9WitA) (some c9WitB) (by decide)⟩

/-- Membership in an insertion. -/
theorem mem_insertRec (a r : TaggedRec) (l : List TaggedRec) :
    a ∈ insertRec r l ↔ a = r ∨ a ∈ l := by
  induction l with
  | nil => simp [insertRec]
  | cons x xs ih =>
      by_cases h : x.confidence ≤ r.confidence
      · simp [insertRec, h]
      · simp [insertRec, h, ih]
        tauto

/-- Insertion keeps the list sorted by descending confidence. -/
theorem insertRec_sorted (r : TaggedRec) (l : List TaggedRec)
    (h : DescSorted l) : DescSorted (insertRec r l) := by
  induction l with
  | nil => simp [insertRec, DescSorted]
  | cons x xs ih =>
      rw [DescSorted, List.pairwise_cons] at h
      obtain ⟨hx, hxs⟩ := h
      by_cases hc : x.confidence ≤ r.confidence
      · rw [insertRec, if_pos hc, DescSorted, List.pairwise_cons]
        refine ⟨?_, ?_⟩
        · intro b hb
          rcases List.mem_cons.mp hb with hb | hb
          · exact hb ▸ hc
          · exact le_trans (hx b hb) hc
        · rw [DescSorted, List.pairwise_cons] at *
          exact ⟨hx, hxs⟩
      · rw [insertRec, if_neg hc, DescSorted, List.pairwise_cons]
        refine ⟨?_, ih hxs⟩
        intro b hb
        rcases (mem_insertRec b r xs).mp hb with hb | hb
        · subst hb
          exact le_of_lt (lt_of_not_le hc)
        · exact hx b hb

/-- The spec-modelled aggregator sort is sorted by descending confidence. -/
theorem sortRecs_sorted (l : List TaggedRec) : DescSorted (sortRecs l) := by
  induction l with
  | nil => simp [sortRecs, DescSorted]
  | cons r rs ih => exact insertRec_sorted r (sortRecs rs) ih

/-- Inserting an element of the given confidence puts it in front of the
elements of that confidence already present. -/
theorem filter_insertRec_eq (r : TaggedRec) (l : List TaggedRec) (c : ℚ)
    (h : r.confidence = c) :
    (insertRec r l).filter (fun a => a.confidence = c)
      = r :: l.filter (fun a => a.confidence = c) := by
  induction l with
  | nil => simp [insertRec, h]
  | cons x xs ih =>
      by_cases hc : x.confidence ≤ r.confidence
      · rw [insertRec, if_pos hc]
        simp [h]
      · have hx : ¬ x.confidence = c := by
          intro hxc
          exact hc (le_of_eq (h ▸ hxc.symm ▸ rfl))
        rw [insertRec, if_neg hc]
        simp [hx, ih]

/-- Inserting an element of another confidence leaves the filtered
sublist unchanged. -/
theorem filter_insertRec_ne (r : TaggedRec) (l : List TaggedRec) (c : ℚ)
    (h : ¬ r.confidence = c) :
    (insertRec r l).filter (fun a => a.confidence = c)
      = l.filter (fun a => a.confidence = c) := by
  induction l with
  | nil => simp [insertRec, h]
  | cons x xs ih =>
      by_cases hc : x.confidence ≤ r.confidence
      · rw [insertRec, if_pos hc]
        simp [h]
      · rw [insertRec, if_neg hc]
        by_cases hx : x.confidence = c
        · simp [hx, ih]
        · simp [hx, ih]

/-- The sort is stable: elements of equal confidence keep their relative
(adapter invocation) order. -/
theorem sortRecs_filter (l : List TaggedRec) (c : ℚ) :
    (sortRecs l).filter (fun a => a.confidence = c)
      = l.filter (fun a => a.confidence = c) := by
  induction l with
  | nil => rfl
  | cons r rs ih =>
      by_cases h : r.confidence = c
      · rw [sortRecs, filter_insertRec_eq r (sortRecs rs) c h, ih]
        simp [h]
      · rw [sortRecs, filter_insertRec_ne r (sortRecs rs) c h, ih]
        simp [h]

/-- Insertion produces a permutation of consing. -/
theorem insertRec_perm (r : TaggedRec) (l : List TaggedRec) :
    (insertRec r l).Perm (r :: l) := by
  induction l with
  | nil => rfl
  | cons x xs ih =>
      by_cases hc : x.confidence ≤ r.confidence
      · rw [insertRec, if_pos hc]
      · rw [insertRec, if_neg hc]
        exact ((ih.cons x).trans (List.Perm.swap r x xs))

/-- The sort reorders without dropping or duplicating entries. -/
theorem sortRecs_perm (l : List TaggedRec) : (sortRecs l).Perm l := by
  induction l with
  | nil => rfl
  | cons r rs ih => exact (insertRec_perm r (sortRecs rs)).trans (ih.cons r)

/-- Claim C3: the aggregated recommendation list is sorted by
non-increasing confidence, is a permutation of the contributed
recommendations (nothing dropped or duplicated), ties keep adapter
invocation order (the filtered sublist at any confidence equals the input
sublist), and the client side preserves this order: the chat context
stores `data.recommendations` unchanged on the success path and
`createAgentResponseDetails` renders one item per recommendation in list
order. -/
theorem aggregatedRecommendations_sorted_stable :
    (∀ outs : List AgentOutput,
      DescSorted (aggregateRecommendations outs) ∧
      (aggregateRecommendations outs).Perm (taggedOf outs) ∧
      ∀ c : ℚ, (aggregateRecommendations outs).filter (fun a => a.confidence = c)
        = (taggedOf outs).filter (fun a => a.confidence = c)) ∧
    (∀ (a : SAAgentResponse) (ars : List SAAgentResponse) (r : String)
        (recs : List String) (ws bs : Option (List String)),
      (createAgentResponseDetails
        { agent_responses := a :: ars
          recommendations := some (r :: recs)
          warnings := ws
          blockers := bs }).recItems
        = (r :: recs).map (fun t => "<li>" ++ t ++ "</li>")) ∧
    (∀ (sid ag : Option String) (txt : String) (resp err sess : Option String)
        (ad : List String) (it : Option String)
        (recs ws bs : Option (List String)),
      ∃ m : ChatMsg,
        (sendMessage sid ag txt (.reply true (some
          { success := some true
            response := resp
            error := err
            session := sess
            agent_details := ad
            intent := it
            recommendations := recs
            warnings := ws
            blockers := bs }))).appended = [mkUserMessage ag txt, m] ∧
        m.recommendations = recs.getD []) := by
  refine ⟨?_, ?_, ?_⟩
  · intro outs
    exact ⟨sortRecs_sorted _, sortRecs_perm _, fun c => sortRecs_filter _ c⟩
  · intro a ars r recs ws bs
    simp [createAgentResponseDetails]
  · intro sid ag txt resp err sess ad it recs ws bs
    exact ⟨_, rfl, rfl⟩

/-- Claim C4: the fertilizer advisor's confidence is the 0.85 base minus a
fixed deduction per provenance level — 0 for an exact match, 0.10 for a
group match, 0.20 for a generic fallback — so exact ≥ group ≥ generic,
with the concrete values 0.85, 0.75 and 0.65. -/
theorem confidenceForSource_rule :
    confidenceForSource "exact" = 85/100 ∧
    confidenceForSource "group" = 75/100 ∧
    confidenceForSource "generic" = 65/100 ∧
    confidenceForSource "generic" ≤ confidenceForSource "group" ∧
    confidenceForSource "group" ≤ confidenceForSource "exact" := by
  refine ⟨?_, ?_, ?_, ?_, ?_⟩ <;> simp [confidenceForSource] <;> norm_num

/-- The server response of the C1 failing input: a successful reply whose
`blockers` array is non-empty. -/
def c1Data : RespData :=
  { success := some true
    response := some "Here is my advice"
    error := none
    session := none
    agent_details := ["fertilizer_advisor"]
    intent := some "fertilizer_query"
    recommendations := some ["Apply 20kg urea"]
    warnings := some ["Check forecast"]
    blockers := some ["soil moisture too high for fertilizer application"] }

/-- The same payload as seen by the SuperAgent renderer. -/
def c1RenderData : SAResponseData :=
  { agent_responses := [{ agent_name := "fertilizer_advisor" }]
    recommendations := some ["Apply 20kg urea"]
    warnings := some ["Check forecast"]
    blockers := some ["soil moisture too high for fertilizer application"] }

/-- Claim C1 failing input, evaluated: for a successful response whose
`blockers` list is non-empty, the assistant message built by
`ChatContext.sendMessage` carries only `content`, `recommendations` and
`warnings` — the blocker string appears in none of them and the message
has no blockers field at all — and `createAgentResponseDetails` renders
only agent tags, recommendations and warnings, again without the blocker.
The safety blocker is silently dropped by the client message
construction, contradicting the spec invariant that blockers are never
dropped. -/
theorem blockers_dropped_from_client_message :
    c1Data.blockers = some ["soil moisture too high for fertilizer application"] ∧
    (∃ m : ChatMsg,
      (sendMessage none none "can I fertilize now" (.reply true (some c1Data))).appended
        = [mkUserMessage none "can I fertilize now", m] ∧
      m.type = "assistant" ∧
      m.content = "Here is my advice" ∧
      m.recommendations = ["Apply 20kg urea"] ∧
      m.warnings = ["Check forecast"] ∧
      "soil moisture too high for fertilizer application" ∉ m.recommendations ∧
      "soil moisture too high for fertilizer application" ∉ m.warnings) ∧
    createAgentResponseDetails c1RenderData =
      { rendered := true
        agentTags := ["<span class=\"agent-tag\">fertilizer_advisor</span>"]
        recItems := ["<li>Apply 20kg urea</li>"]
        warnItems := ["<li>Check forecast</li>"] } := by
  refine ⟨rfl, ⟨_, rfl, rfl, rfl, rfl, rfl, by decide, by decide⟩, by decide⟩

/-- Value read back from a decimal character list. -/
def decValue (l : List Char) : Nat :=
  l.foldl (fun acc c => acc * 10 + (c.toNat - 48)) 0

/-- A decimal digit character decodes to its digit. -/
theorem toNat_decDigit (d : Nat) (h : d < 10) :
    (Char.ofNat (48 + d)).toNat - 48 = d := by
  interval_cases d <;> rfl

/-- A decimal digit character is not an underscore. -/
theorem decDigit_ne_underscore (d : Nat) (h : d < 10) :
    Char.ofNat (48 + d) ≠ '_' := by
  interval_cases d <;> decide

/-- Reading the rendered decimal of a number back yields the number:
the rendering is injective. -/
theorem decValue_natDecimal (n : Nat) : decValue (natDecimal n) = n := by
  induction n using Nat.strong_induction_on with
  | _ n ih =>
      rw [natDecimal]
      by_cases h : n < 10
      · rw [dif_pos h]
        show 0 * 10 + ((Char.ofNat (48 + n)).toNat - 48) = n
        rw [toNat_decDigit n h]
        omega
      · rw [dif_neg h]
        have h1 := ih (n / 10) (Nat.div_lt_self (by omega) (by omega))
        unfold decValue at h1 ⊢
        rw [List.foldl_append, h1]
        show (n / 10) * 10 + ((Char.ofNat (48 + n % 10)).toNat - 48) = n
        rw [toNat_decDigit (n % 10) (Nat.mod_lt n (by omega))]
        omega

/-- The decimal rendering contains no underscore. -/
theorem natDecimal_no_underscore (n : Nat) : '_' ∉ natDecimal n := by
  induction n using Nat.strong_induction_on with
  | _ n ih =>
      rw [natDecimal]
      by_cases h : n < 10
      · rw [dif_pos h]
        simp [Ne.symm (decDigit_ne_underscore n h)]
      · rw [dif_neg h]
        intro hmem
        rcases List.mem_append.mp hmem with hmem | hmem
        · exact ih (n / 10) (Nat.div_lt_self (by omega) (by omega)) hmem
        · have := decDigit_ne_underscore (n % 10) (Nat.mod_lt n (by omega))
          simp at hmem
          exact this hmem.symm

/-- Two underscore-terminated segments that contain no underscore split a
concatenation uniquely. -/
theorem underscore_split_inj (a₁ : List Char) :
    ∀ (a₂ b₁ b₂ : List Char), '_' ∉ a₁ → '_' ∉ a₂ →
    a₁ ++ '_' :: b₁ = a₂ ++ '_' :: b₂ → a₁ = a₂ ∧ b₁ = b₂ := by
  induction a₁ with
  | nil =>
      intro a₂ b₁ b₂ h₁ h₂ h
      cases a₂ with
      | nil => simpa using h
      | cons c a₂' =>
          simp at h
          exact absurd (h.1 ▸ List.mem_cons_self c a₂') h₂
  | cons c a₁' ih =>
      intro a₂ b₁ b₂ h₁ h₂ h
      cases a₂ with
      | nil =>
          simp at h
          exact absurd (h.1 ▸ List.mem_cons_self c a₁') h₁
      | cons c' a₂' =>
          simp at h
          obtain ⟨rfl, h⟩ := h
          have := ih a₂' b₁ b₂ (fun hm => h₁ (List.mem_cons_of_mem c hm))
            (fun hm => h₂ (List.mem_cons_of_mem c hm)) h
          exact ⟨by rw [this.1], this.2⟩

/-- Session ids coincide exactly when both the millisecond timestamp and
the random suffix coincide. -/
theorem generateSessionId_eq_iff (n₁ n₂ : Nat) (r₁ r₂ : String) :
    generateSessionId n₁ r₁ = generateSessionId n₂ r₂ ↔ (n₁ = n₂ ∧ r₁ = r₂) := by
  constructor
  · intro h
    have hdata : "session_".data ++ natDecimal n₁ ++ '_' :: r₁.data
        = "session_".data ++ natDecimal n₂ ++ '_' :: r₂.data :=
      congrArg String.data h
    rw [List.append_assoc, List.append_assoc] at hdata
    have hmid := List.append_cancel_left hdata
    have hsplit := underscore_split_inj (natDecimal n₁) (natDecimal n₂)
      r₁.data r₂.data (natDecimal_no_underscore n₁)
      (natDecimal_no_underscore n₂) hmid
    refine ⟨?_, ?_⟩
    · have := congrArg decValue hsplit.1
      rwa [decValue_natDecimal, decValue_natDecimal] at this
    · cases r₁
      cases r₂
      exact congrArg String.mk hsplit.2
  · rintro ⟨rfl, rfl⟩
    rfl

/-- Claim C8 counterexample: the generator does not guarantee distinct
ids across invocations — two session creations that happen in the same
millisecond and draw the same random suffix (nothing in the source
prevents either) return the very same id string. -/
theorem generateSessionId_collision :
    generateSessionId 1700000000000 "k3j9q2xam"
      = generateSessionId 1700000000000 "k3j9q2xam" := rfl

/-- Claim C8 (amended): a conversation started without a session id gets
a freshly generated `session_<timestamp>_<random>` id, and two
invocations of the generator return distinct ids whenever they differ in
timestamp or in random suffix; uniqueness fails only when both the
millisecond and the random draw coincide — the collision risk the spec
flags for client-side id generation. -/
theorem generateSessionId_distinct (n₁ n₂ : Nat) (r₁ r₂ : String)
    (h : n₁ ≠ n₂ ∨ r₁ ≠ r₂) :
    generateSessionId n₁ r₁ ≠ generateSessionId n₂ r₂ := by
  intro heq
  rcases (generateSessionId_eq_iff n₁ n₂ r₁ r₂).mp heq with ⟨h1, h2⟩
  rcases h with h | h
  · exact h h1
  · exact h h2

/-- Claim C8 witness: two invocations one millisecond apart yield
distinct ids. -/
theorem generateSessionId_distinct_witness :
    ((1700000000000 : Nat) ≠ 1700000000001 ∨ ("k3j9q2xam" : String) ≠ "k3j9q2xam") ∧
    generateSessionId 1700000000000 "k3j9q2xam"
      ≠ generateSessionId 1700000000001 "k3j9q2xam" :=
  ⟨Or.inl (by decide),
    generateSessionId_distinct 1700000000000 1700000000001 "k3j9q2xam" "k3j9q2xam"
      (Or.inl (by decide))⟩
